import Mathlib

/-!
# Verification of the RuntimeTests HIR golden-test driver

This file is a shallow embedding of `RuntimeTests/main.cpp`, the driver of a
golden-test harness for a compiler's high-level IR (HIR), together with a
model of the refcount-insertion pass described by the project documentation.

The driver:
* loads fixture suites (`ReadHIRTestSuite`), exiting the process with status 1
  when a fixture is malformed (the loader returns null);
* validates every pass name of a suite against a `PassRegistry`, exiting the
  process with status 1 on the first unresolvable name;
* registers each test case whose name does not begin with the `@disabled`
  prefix (a `strncmp` against the first nine characters), with a factory that
  builds the pass pipeline freshly at test-construction time;
* after registering all suites, sets the process-wide stable-pointers toggle
  once and then runs all registered tests, returning the runner's aggregate
  status.

`ReadHIRTestSuite` and `PassRegistry::MakePass` live outside the driver; they
are modelled as function parameters (`loader`, `MakePass`).  The pass type is
a type parameter `P`.
-/

namespace RuntimeTests

/-- A test case of a fixture file, as produced by the suite loader:
a name, a flag telling whether `src` is already HIR text (vs. language
source), the input text, and the expected post-pipeline HIR text. -/
structure TestCase where
  name : String
  src_is_hir : Bool
  src : String
  expected_hir : String
deriving DecidableEq, Repr

/-- A fixture suite: a name, an ordered list of pass names (possibly empty)
and an ordered list of test cases. -/
structure TestSuite where
  name : String
  pass_names : List String
  test_cases : List TestCase
deriving DecidableEq, Repr

/-- `g_disabled_prefix` from the driver: the marker prefix of disabled
test-case names. -/
def g_disabled_prefix : String := "@disabled"

/-- Model of C `strncmp(a, b, n) == 0` on null-terminated strings
represented as character lists (the empty list standing for the point where
the terminating null is reached).  `strncmp` compares at most `n`
characters, stopping early at a mismatch or when both strings end. -/
def strncmpIsZero : List Char → List Char → Nat → Bool
  | _, _, 0 => true
  | [], [], _ + 1 => true
  | [], _ :: _, _ + 1 => false
  | _ :: _, [], _ + 1 => false
  | a :: as, b :: bs, n + 1 => a == b && strncmpIsZero as bs n

/-- The disabled check of `register_test`:
`strncmp(test_case.name.c_str(), g_disabled_prefix, sizeof(g_disabled_prefix) - 1) == 0`,
where `sizeof(g_disabled_prefix) - 1 = 9`. -/
def isDisabled (name : String) : Bool :=
  strncmpIsZero name.data g_disabled_prefix.data g_disabled_prefix.length

/-- A test registered with the test runner via `testing::RegisterTest`:
the suite/case names and the data captured by the factory lambda. -/
structure RegisteredTest where
  suite_name : String
  case_name : String
  has_passes : Bool
  pass_names : List String
  src_is_hir : Bool
  src : String
  expected_hir : String
  compile_static : Bool
deriving DecidableEq, Repr

/-- The registration record built for a test case `tc` of suite `suite`. -/
def toReg (suite : TestSuite) (compile_static : Bool) (tc : TestCase) :
    RegisteredTest :=
  { suite_name := suite.name
    case_name := tc.name
    has_passes := !suite.pass_names.isEmpty
    pass_names := suite.pass_names
    src_is_hir := tc.src_is_hir
    src := tc.src
    expected_hir := tc.expected_hir
    compile_static := compile_static }

/-- The validation loop of `register_test`: call `MakePass` on each pass name
in order; `false` as soon as one resolves to null. -/
def validatePasses {P : Type} (MakePass : String → Option P) :
    List String → Bool
  | [] => true
  | n :: ns =>
    match MakePass n with
    | none => false
    | some _ => validatePasses MakePass ns

/-- The test object that the registered factory constructs when the test
runner instantiates the test (`new HIRTest(...)`): either the
pipeline-carrying constructor or the pipeline-less one. -/
inductive HIRTestObj (P : Type) where
  | withPasses (passes : List (Option P)) (src_is_hir : Bool) (src : String)
      (expected_hir : String) (compile_static : Bool)
  | noPasses (src_is_hir : Bool) (src : String) (expected_hir : String)
      (compile_static : Bool)
deriving DecidableEq

/-- The factory lambda of `register_test`, evaluated at test-construction
time: when the suite has passes it constructs a fresh registry and builds
one pass per name, in order; otherwise it uses the pipeline-less
constructor. -/
def makeTestObj {P : Type} (MakePass : String → Option P)
    (t : RegisteredTest) : HIRTestObj P :=
  if t.has_passes then
    .withPasses (t.pass_names.map MakePass) t.src_is_hir t.src
      t.expected_hir t.compile_static
  else
    .noPasses t.src_is_hir t.src t.expected_hir t.compile_static

/-- `register_test(path, compile_static)`: load the suite at `path`
(`std::exit(1)` when the loader returns null, modelled as `.error 1`),
validate all pass names when the suite has passes (`std::exit(1)` on an
unknown name), then register every test case whose name does not carry the
disabled prefix. -/
def register_test {P : Type} (loader : String → Option TestSuite)
    (MakePass : String → Option P) (path : String)
    (compile_static : Bool := false) :
    Except Nat (List RegisteredTest) :=
  match loader path with
  | none => .error 1
  | some suite =>
    if !suite.pass_names.isEmpty && !validatePasses MakePass suite.pass_names
    then .error 1
    else .ok ((suite.test_cases.filter fun tc => !isDisabled tc.name).map
        (toReg suite compile_static))

/-- The fixture paths registered by `main`, with their `compile_static`
flags, in registration order. -/
def suitePaths : List (String × Bool) :=
  [ ("RuntimeTests/hir_tests/call_optimization_test.txt", false)
  , ("RuntimeTests/hir_tests/dynamic_comparison_elimination_test.txt", false)
  , ("RuntimeTests/hir_tests/hir_builder_test.txt", false)
  , ("RuntimeTests/hir_tests/hir_builder_static_test.txt", true)
  , ("RuntimeTests/hir_tests/load_attr_specialization_test.txt", false)
  , ("RuntimeTests/hir_tests/phi_elimination_test.txt", false)
  , ("RuntimeTests/hir_tests/refcount_insertion_test.txt", false)
  , ("RuntimeTests/hir_tests/refcount_insertion_static_test.txt", true)
  , ("RuntimeTests/hir_tests/super_access_test.txt", true)
  , ("RuntimeTests/hir_tests/simplify_test.txt", false)
  , ("RuntimeTests/hir_tests/dead_code_elimination_test.txt", false)
  , ("RuntimeTests/hir_tests/dead_code_elimination_and_simplify_test.txt", true)
  , ("RuntimeTests/hir_tests/simplify_static_test.txt", true) ]

/-- The registration phase of `main`: run `register_test` on each fixture in
order; a fatal error (`std::exit`) anywhere stops the process with that
code, otherwise all registered tests accumulate in order. -/
def registerParcel {P : Type} (loader : String → Option TestSuite)
    (MakePass : String → Option P) :
    List (String × Bool) → Except Nat (List RegisteredTest)
  | [] => .ok []
  | (path, cs) :: rest =>
    match register_test loader MakePass path cs with
    | .error c => .error c
    | .ok ts =>
      match registerParcel loader MakePass rest with
      | .error c => .error c
      | .ok more => .ok (ts ++ more)

/-- All registrations performed by `main`. -/
def registerAll {P : Type} (loader : String → Option TestSuite)
    (MakePass : String → Option P) : Except Nat (List RegisteredTest) :=
  registerParcel loader MakePass suitePaths

/-- The observable outcome of running `main`: an early `std::exit` during
registration, an `std::abort` when `Py_DecodeLocale` fails, or a full run
of the registered tests ending with the runner's aggregate status. -/
inductive DriverResult where
  | earlyExit (code : Nat)
  | aborted
  | ran (tests : List RegisteredTest) (status : Nat)
deriving DecidableEq, Repr

/-- `main`: register all suites (any `std::exit(1)` there ends the process
before `RUN_ALL_TESTS`), decode `argv[0]` (`std::abort` on failure,
modelled by the `decodeOk` flag), set the stable-pointers toggle, run all
registered tests and return the runner's status.  `runner` models
`RUN_ALL_TESTS` over the registered test list. -/
def driverMain {P : Type} (loader : String → Option TestSuite)
    (MakePass : String → Option P) (decodeOk : Bool)
    (runner : List RegisteredTest → Nat) : DriverResult :=
  match registerAll loader MakePass with
  | .error c => .earlyExit c
  | .ok ts => if decodeOk then .ran ts (runner ts) else .aborted

/-- The process exit status of a driver outcome (an abort is a non-zero
abnormal termination; any value ≥ 1 represents it faithfully for the
claims, which only distinguish zero from non-zero). -/
def exitStatus : DriverResult → Nat
  | .earlyExit c => c
  | .aborted => 134
  | .ran _ s => s

/-- How many registered test cases the test runner executed. -/
def executedCount : DriverResult → Nat
  | .earlyExit _ => 0
  | .aborted => 0
  | .ran ts _ => ts.length

/-- An observable event of the `main` process, in program order. -/
inductive MainEvent where
  | registered (t : RegisteredTest)
  | exitedEarly (code : Nat)
  | abortedEv
  | setStablePointers (value : Bool)
  | ranAllTests (count : Nat)
deriving DecidableEq, Repr

/-- Is the event the stable-pointers toggle write (`jit::setUseStablePointers`)? -/
def isSetStableEv : MainEvent → Bool
  | .setStablePointers _ => true
  | _ => false

/-- Is the event the execution of the registered tests (`RUN_ALL_TESTS`)? -/
def isRunEv : MainEvent → Bool
  | .ranAllTests _ => true
  | _ => false

/-- The event trace of `main`: registrations (or an early exit), then — only
when registration succeeded — the `Py_DecodeLocale` outcome, the single
stable-pointers toggle write, and the test run. -/
def mainTrace {P : Type} (loader : String → Option TestSuite)
    (MakePass : String → Option P) (decodeOk : Bool) : List MainEvent :=
  match registerAll loader MakePass with
  | .error c => [.exitedEarly c]
  | .ok ts =>
    ts.map .registered ++
      (if decodeOk then [.setStablePointers true, .ranAllTests ts.length]
       else [.abortedEv])

end RuntimeTests

namespace PipelineModel

/-- Modelled from the spec: the pass pipeline runner.  The pass
implementations and `HIRTest::TestBody` are not part of the driver source;
per §4.2/§4.3 every pass is stateless and deterministic (`Run` is a pure
CFG-to-CFG transformation), so a pass is a function `H → H` over an
abstract HIR type `H`, and running a pipeline is left-to-right function
application in declared order. -/
def runPipeline {H : Type} (passes : List (H → H)) (hir : H) : H :=
  passes.foldl (fun acc p => p acc) hir

/-- Modelled from the spec: constructing the pipeline from a registry
instance: one pass instance per name, in order, skipping nothing (names are
validated beforehand, so `filterMap` drops nothing when validation
succeeded). -/
def buildPipeline {H : Type} (reg : String → Option (H → H))
    (names : List String) : List (H → H) :=
  names.filterMap reg

end PipelineModel

namespace RefcountModel

/-!
Modelled from the spec: the refcount-insertion pass (§4.4) and the HIR CFG
it runs on are not part of the driver source.  Per the spec, the pass
computes per-block live-in/live-out sets of heap-reference values by
standard backward liveness (step 1) and then, for each tracked value:

* establishes a +1 ownership budget at the definition site — the defining
  instruction either already yields an owned reference or an increment is
  inserted immediately after it (step 2), so each definition contributes
  exactly one increment to the path budget;
* inserts a decrement where the value's live range ends inside a block
  (after its last use, step 3);
* inserts a decrement on every control-flow edge leaving a block where the
  value is live-out but dead at the chosen successor — the divergent path
  that does not propagate the value (step 3);
* exceptional edges are ordinary successor edges for liveness (step 5), so
  an exit block (normal or exceptional) is a block with no successors.
-/

/-- Modelled from the spec: the CFG shape the pass needs — successor lists
(including exceptional edges), the block-level heap-reference definition
relation, and the block-level upward-exposed use relation.  Blocks and
values are identified by numbers. -/
structure Cfg where
  succs : Nat → List Nat
  defsB : Nat → Nat → Bool
  useB : Nat → Nat → Bool

/-- Modelled from the spec: a path through the CFG ending at an exit: non-empty, each step follows a
successor edge, and the last block has no successors (a normal or
exceptional exit). -/
def validPathB (cfg : Cfg) : List Nat → Bool
  | [] => false
  | [b] => (cfg.succs b).isEmpty
  | b :: b' :: rest => (cfg.succs b).contains b' && validPathB cfg (b' :: rest)

/-- Modelled from the spec: the backward-liveness dataflow equations (§4.4 step 1) at block `b`
for value `v`: live-in is the upward-exposed uses plus whatever is live-out
and not defined here; live-out is the union of the successors' live-in. -/
def liveEqAt (cfg : Cfg) (liveIn liveOut : Nat → Nat → Bool) (v b : Nat) :
    Prop :=
  liveIn b v = (cfg.useB b v || (liveOut b v && !cfg.defsB b v)) ∧
  liveOut b v = (cfg.succs b).any (fun s => liveIn s v)

instance (cfg : Cfg) (liveIn liveOut : Nat → Nat → Bool) (v b : Nat) :
    Decidable (liveEqAt cfg liveIn liveOut v b) :=
  inferInstanceAs (Decidable (_ ∧ _))

/-- Modelled from the spec: does the pass place a decrement for `v` inside block `b`?  Yes exactly
when `v`'s live range ends in `b`: `v` is defined here or live on entry,
but not live-out (§4.4 step 3, in-block case). -/
def decInBlock (cfg : Cfg) (liveIn liveOut : Nat → Nat → Bool)
    (b v : Nat) : Bool :=
  (cfg.defsB b v || liveIn b v) && !liveOut b v

/-- Modelled from the spec: does the pass place a decrement for `v` on the edge `b → s`?  Yes
exactly when `v` is live across the branch out of `b` but the divergent
successor `s` does not propagate it (§4.4 step 3, edge case; conceptually
the decrement sits in `b` immediately before the transfer, §4.4 step 4). -/
def decOnEdge (liveIn liveOut : Nat → Nat → Bool) (b s v : Nat) : Bool :=
  liveOut b v && !liveIn s v

/-- Modelled from the spec: the number of ownership-acquiring operations for `v` along a path: one
per defining block — the +1 either comes from the defining instruction
itself (it yields an owned reference) or from the increment the pass
inserts right after it (§4.4 step 2); either way the path budget gains
exactly one at the definition. -/
def incCount (cfg : Cfg) (v : Nat) (p : List Nat) : Nat :=
  p.countP (fun b => cfg.defsB b v)

/-- Modelled from the spec: the number of decrements for `v` the pass placed along a path: the
in-block decrements of every visited block plus the edge decrements of
every traversed edge. -/
def decCount (cfg : Cfg) (liveIn liveOut : Nat → Nat → Bool) (v : Nat) :
    List Nat → Nat
  | [] => 0
  | [b] => if decInBlock cfg liveIn liveOut b v then 1 else 0
  | b :: s :: rest =>
    (if decInBlock cfg liveIn liveOut b v then 1 else 0) +
      (if decOnEdge liveIn liveOut b s v then 1 else 0) +
      decCount cfg liveIn liveOut v (s :: rest)

end RefcountModel

namespace RuntimeTests

/-- The list of tests `register_test` registers for a successfully loaded
and validated suite: every case whose name does not carry the disabled
marker, in suite order. -/
def enabledOf (suite : TestSuite) (compile_static : Bool) :
    List RegisteredTest :=
  (suite.test_cases.filter fun tc => !isDisabled tc.name).map
    (toReg suite compile_static)

/-- The full test set `main` registers when every fixture loads and every
pass name validates: the enabled cases of each suite, in fixture order. -/
def registeredOf (loader : String → Option TestSuite) :
    List (String × Bool) → List RegisteredTest
  | [] => []
  | (path, cs) :: rest =>
    (match loader path with
     | some suite => enabledOf suite cs
     | none => []) ++ registeredOf loader rest

/-! Concrete fixtures used to evaluate the driver model on closed inputs. -/

/-- A concrete enabled test case. -/
def sampleCaseA : TestCase :=
  { name := "simple_case", src_is_hir := true, src := "fun", expected_hir := "out" }

/-- A concrete test case carrying the disabled marker. -/
def sampleCaseD : TestCase :=
  { name := "@disabled broken_case", src_is_hir := true, src := "fun", expected_hir := "out" }

/-- A concrete suite with one pass name and one disabled case. -/
def sampleSuite : TestSuite :=
  { name := "CleanSuite", pass_names := ["Simplify"], test_cases := [sampleCaseA, sampleCaseD] }

/-- A concrete builder-only suite (no passes). -/
def sampleSuiteNoPasses : TestSuite :=
  { name := "BuilderSuite", pass_names := [], test_cases := [sampleCaseA, sampleCaseD] }

/-- A loader that yields `sampleSuite` for every fixture path. -/
def sampleLoader : String → Option TestSuite := fun _ => some sampleSuite

/-- A loader that yields the builder-only suite for every path. -/
def sampleLoaderNoPasses : String → Option TestSuite :=
  fun _ => some sampleSuiteNoPasses

/-- A loader for which every fixture is malformed. -/
def sampleLoaderBad : String → Option TestSuite := fun _ => none

/-- A registry resolving exactly the name used by `sampleSuite`. -/
def sampleMakePass : String → Option Nat :=
  fun n => if n = "Simplify" then some 7 else none

/-- A registry resolving no name at all. -/
def sampleMakePassNone : String → Option Nat := fun _ => none

/-- A test runner with aggregate status 0. -/
def sampleRunner : List RegisteredTest → Nat := fun _ => 0

/-- The first fixture path registered by `main`. -/
def samplePath : String := "RuntimeTests/hir_tests/call_optimization_test.txt"

/-- A second concrete registry with a different pass type, to exercise
registry-independence of builder-only suites. -/
def sampleMakePassBool : String → Option Bool := fun _ => some true

end RuntimeTests

namespace PipelineModel

/-- A concrete pass-registry instance over HIR modelled as `Nat`. -/
def samplePassReg : String → Option (Nat → Nat) :=
  fun n => if n = "Simplify" then some (fun x => x + 1) else none

/-- A second, independently constructed registry instance with the same
name-to-behavior mapping. -/
def samplePassRegCopy : String → Option (Nat → Nat) :=
  fun n => if n = "Simplify" then some (fun x => x + 1) else none

end PipelineModel

namespace RefcountModel

/-- A concrete CFG: block 0 (entry) defines value 7 and branches to blocks
1 and 2; block 1 uses value 7 and falls through to the exit block 3;
block 2 reaches the exit without using the value. -/
def sampleCfg : Cfg :=
  { succs := fun b =>
      if b = 0 then [1, 2] else if b = 1 then [3] else if b = 2 then [3] else []
    defsB := fun b v => b == 0 && v == 7
    useB := fun b v => b == 1 && v == 7 }

/-- The live-in solution of the backward-liveness equations on `sampleCfg`
for value 7: live on entry to block 1 only. -/
def sampleLiveIn : Nat → Nat → Bool := fun b v => b == 1 && v == 7

/-- The live-out solution on `sampleCfg` for value 7: live out of the entry
block only. -/
def sampleLiveOut : Nat → Nat → Bool := fun b v => b == 0 && v == 7

end RefcountModel

namespace RuntimeTests

/-! ## Helper lemmas about the driver model -/

theorem strncmpIsZero_take (b : List Char) :
    ∀ a : List Char, strncmpIsZero a b b.length = true ↔ a.take b.length = b := by
  induction b with
  | nil => intro a; simp [strncmpIsZero]
  | cons c bs ih =>
    intro a
    cases a with
    | nil => simp [strncmpIsZero]
    | cons x as =>
      simp only [List.length_cons, strncmpIsZero, List.take_succ_cons,
        Bool.and_eq_true, beq_iff_eq, List.cons.injEq, ih as]

theorem isDisabled_iff_take (name : String) :
    isDisabled name = true ↔ name.data.take 9 = g_disabled_prefix.data := by
  have hlen : g_disabled_prefix.length = g_disabled_prefix.data.length := rfl
  have h9 : g_disabled_prefix.data.length = 9 := rfl
  rw [isDisabled, hlen, strncmpIsZero_take g_disabled_prefix.data name.data, h9]

theorem validatePasses_iff {P : Type} (MakePass : String → Option P)
    (ns : List String) :
    validatePasses MakePass ns = true ↔ ∀ n ∈ ns, (MakePass n).isSome = true := by
  induction ns with
  | nil => simp [validatePasses]
  | cons n ns ih =>
    cases h : MakePass n with
    | none => simp [validatePasses, h]
    | some p => simp [validatePasses, h, ih]

theorem register_test_ok_elim {P : Type} (loader : String → Option TestSuite)
    (MakePass : String → Option P) (path : String) (cs : Bool)
    (suite : TestSuite) (ts : List RegisteredTest)
    (hload : loader path = some suite)
    (hreg : register_test loader MakePass path cs = .ok ts) :
    ts = enabledOf suite cs := by
  simp only [register_test, hload] at hreg
  by_cases h : (!suite.pass_names.isEmpty && !validatePasses MakePass suite.pass_names) = true
  · rw [if_pos h] at hreg; exact absurd hreg (by simp)
  · rw [if_neg h] at hreg
    injection hreg with h'
    exact h'.symm ▸ rfl

theorem register_test_validated {P : Type} (loader : String → Option TestSuite)
    (MakePass : String → Option P) (path : String) (cs : Bool)
    (suite : TestSuite) (ts : List RegisteredTest)
    (hload : loader path = some suite)
    (hne : suite.pass_names ≠ [])
    (hreg : register_test loader MakePass path cs = .ok ts) :
    validatePasses MakePass suite.pass_names = true := by
  have h1 : suite.pass_names.isEmpty = false := by
    cases hE : suite.pass_names with
    | nil => exact absurd hE hne
    | cons a l => rfl
  simp only [register_test, hload, h1, Bool.not_false, Bool.true_and] at hreg
  by_cases hv : validatePasses MakePass suite.pass_names = true
  · exact hv
  · rw [Bool.not_eq_true] at hv
    rw [hv] at hreg
    simp at hreg

theorem register_test_error_one {P : Type} (loader : String → Option TestSuite)
    (MakePass : String → Option P) (path : String) (cs : Bool) (c : Nat)
    (h : register_test loader MakePass path cs = .error c) : c = 1 := by
  cases hl : loader path with
  | none =>
    simp only [register_test, hl] at h
    injection h with h'
    exact h'.symm
  | some suite =>
    simp only [register_test, hl] at h
    by_cases hc : (!suite.pass_names.isEmpty && !validatePasses MakePass suite.pass_names) = true
    · rw [if_pos hc] at h; injection h with h'; exact h'.symm
    · rw [if_neg hc] at h; exact absurd h (by simp)

theorem registerParcel_error_of_mem {P : Type} (loader : String → Option TestSuite)
    (MakePass : String → Option P) :
    ∀ l : List (String × Bool), ∀ pc ∈ l,
      register_test loader MakePass pc.1 pc.2 = .error 1 →
      registerParcel loader MakePass l = .error 1 := by
  intro l
  induction l with
  | nil => intro pc h; exact absurd h (List.not_mem_nil pc)
  | cons q rest ih =>
    intro pc hmem herr
    obtain ⟨qp, qc⟩ := q
    rcases List.mem_cons.mp hmem with h | h
    · subst h
      simp only [registerParcel, herr]
    · cases hq : register_test loader MakePass qp qc with
      | error c =>
        have := register_test_error_one loader MakePass qp qc c hq
        subst this
        simp only [registerParcel, hq]
      | ok ts =>
        have hrest := ih pc h herr
        simp only [registerParcel, hq, hrest]

theorem registerParcel_ok_of_all {P : Type} (loader : String → Option TestSuite)
    (MakePass : String → Option P) :
    ∀ l : List (String × Bool),
      (∀ pc ∈ l, ∃ suite, loader pc.1 = some suite ∧
        ∀ n ∈ suite.pass_names, (MakePass n).isSome = true) →
      registerParcel loader MakePass l = .ok (registeredOf loader l) := by
  intro l
  induction l with
  | nil => intro _; rfl
  | cons q rest ih =>
    intro hall
    obtain ⟨qp, qc⟩ := q
    obtain ⟨suite, hload, hval⟩ := hall (qp, qc) (List.mem_cons_self _ _)
    have hv : validatePasses MakePass suite.pass_names = true :=
      (validatePasses_iff MakePass suite.pass_names).mpr hval
    have hreg : register_test loader MakePass qp qc = .ok (enabledOf suite qc) := by
      simp [register_test, hload, hv, enabledOf]
    have hrest := ih (fun pc hpc => hall pc (List.mem_cons_of_mem _ hpc))
    simp only [registerParcel, hreg, hrest, registeredOf, hload]

/-! ## The claims -/

/-- C10: a test case is excluded from registration exactly when the first
nine characters of its name are the string `"@disabled"`; any name with
that prefix is excluded no matter what follows, and any other name is
registered normally. -/
theorem c10_disabled_marker_exact :
    (∀ name : String,
      (isDisabled name = true ↔ name.data.take 9 = g_disabled_prefix.data)) ∧
    (∀ (P : Type) (loader : String → Option TestSuite)
        (MakePass : String → Option P) (path : String) (cs : Bool)
        (suite : TestSuite) (ts : List RegisteredTest),
      loader path = some suite →
      register_test loader MakePass path cs = Except.ok ts →
      ∀ tc ∈ suite.test_cases,
        (toReg suite cs tc ∈ ts ↔ ¬ tc.name.data.take 9 = g_disabled_prefix.data)) := by
  refine ⟨isDisabled_iff_take, ?_⟩
  intro P loader MakePass path cs suite ts hload hreg tc htc
  have hts := register_test_ok_elim loader MakePass path cs suite ts hload hreg
  subst hts
  rw [← isDisabled_iff_take]
  constructor
  · intro hmem hdis
    obtain ⟨tc', htc', heq⟩ := List.mem_map.mp hmem
    obtain ⟨htc'mem, hen⟩ := List.mem_filter.mp htc'
    have : tc'.name = tc.name := congrArg RegisteredTest.case_name heq
    rw [this] at hen
    simp [hdis] at hen
  · intro hen
    exact List.mem_map.mpr ⟨tc, List.mem_filter.mpr ⟨htc, by simp [hen]⟩, rfl⟩

/-- C10 witness: the enabled sample case is registered and the
`@disabled`-marked one is not, evaluated on a concrete suite. -/
theorem c10_disabled_marker_exact_witness :
    (toReg sampleSuite false sampleCaseA ∈ enabledOf sampleSuite false ↔
      ¬ sampleCaseA.name.data.take 9 = g_disabled_prefix.data) ∧
    (toReg sampleSuite false sampleCaseD ∈ enabledOf sampleSuite false ↔
      ¬ sampleCaseD.name.data.take 9 = g_disabled_prefix.data) := by
  have hreg : register_test sampleLoader sampleMakePass samplePath false =
      Except.ok (enabledOf sampleSuite false) := rfl
  exact ⟨c10_disabled_marker_exact.2 Nat sampleLoader sampleMakePass samplePath
      false sampleSuite (enabledOf sampleSuite false) rfl hreg sampleCaseA (by decide),
    c10_disabled_marker_exact.2 Nat sampleLoader sampleMakePass samplePath
      false sampleSuite (enabledOf sampleSuite false) rfl hreg sampleCaseD (by decide)⟩

/-- C3: a test case whose name carries the disabled marker is present in the
loaded suite's case list, yet no registered test of that suite carries its
name, so it can produce neither a pass nor a fail result. -/
theorem c3_disabled_case_never_registered {P : Type}
    (loader : String → Option TestSuite) (MakePass : String → Option P)
    (path : String) (cs : Bool) (suite : TestSuite) (tc : TestCase)
    (ts : List RegisteredTest)
    (hload : loader path = some suite)
    (htc : tc ∈ suite.test_cases)
    (hdis : isDisabled tc.name = true)
    (hreg : register_test loader MakePass path cs = .ok ts) :
    ∀ t ∈ ts, t.case_name ≠ tc.name := by
  have hts := register_test_ok_elim loader MakePass path cs suite ts hload hreg
  subst hts
  intro t hmem heq
  obtain ⟨tc', htc', rfl⟩ := List.mem_map.mp hmem
  obtain ⟨_, hen⟩ := List.mem_filter.mp htc'
  have : tc'.name = tc.name := heq
  rw [this] at hen
  simp [hdis] at hen

/-- C3 witness: evaluated on the concrete suite containing the
`@disabled`-marked case, at the one registered test. -/
theorem c3_disabled_case_never_registered_witness :
    (toReg sampleSuite false sampleCaseA).case_name ≠ sampleCaseD.name :=
  c3_disabled_case_never_registered sampleLoader sampleMakePass samplePath
    false sampleSuite sampleCaseD (enabledOf sampleSuite false) rfl
    (by decide) (by decide) rfl (toReg sampleSuite false sampleCaseA)
    (by decide)

end RuntimeTests

namespace RuntimeTests

/-- C4: every test registered from a suite with a non-empty pass-name list
is constructed (at test-construction time, by its factory) with a pipeline
built by resolving the suite's pass names anew, one instance per name, in
exactly the declared order; and every one of those names resolved. -/
theorem c4_pipeline_fresh_in_order {P : Type}
    (loader : String → Option TestSuite) (MakePass : String → Option P)
    (path : String) (cs : Bool) (suite : TestSuite) (ts : List RegisteredTest)
    (hload : loader path = some suite)
    (hne : suite.pass_names ≠ [])
    (hreg : register_test loader MakePass path cs = .ok ts) :
    (∀ t ∈ ts, makeTestObj MakePass t =
      HIRTestObj.withPasses (suite.pass_names.map MakePass)
        t.src_is_hir t.src t.expected_hir cs) ∧
    ∀ n ∈ suite.pass_names, (MakePass n).isSome = true := by
  have h1 : suite.pass_names.isEmpty = false := by
    cases hE : suite.pass_names with
    | nil => exact absurd hE hne
    | cons a l => rfl
  have hts := register_test_ok_elim loader MakePass path cs suite ts hload hreg
  subst hts
  refine ⟨?_, (validatePasses_iff MakePass suite.pass_names).mp
    (register_test_validated loader MakePass path cs suite _ hload hne hreg)⟩
  intro t hmem
  obtain ⟨tc, _, rfl⟩ := List.mem_map.mp hmem
  simp [makeTestObj, toReg, h1]

/-- C4 witness: the concrete one-pass suite, evaluated at its enabled case. -/
theorem c4_pipeline_fresh_in_order_witness :
    makeTestObj sampleMakePass (toReg sampleSuite false sampleCaseA) =
      HIRTestObj.withPasses (sampleSuite.pass_names.map sampleMakePass)
        (toReg sampleSuite false sampleCaseA).src_is_hir
        (toReg sampleSuite false sampleCaseA).src
        (toReg sampleSuite false sampleCaseA).expected_hir false ∧
    (sampleMakePass "Simplify").isSome = true :=
  ⟨(c4_pipeline_fresh_in_order sampleLoader sampleMakePass samplePath false
      sampleSuite (enabledOf sampleSuite false) rfl (by decide) rfl).1
      (toReg sampleSuite false sampleCaseA) (by decide),
    (c4_pipeline_fresh_in_order sampleLoader sampleMakePass samplePath false
      sampleSuite (enabledOf sampleSuite false) rfl (by decide) rfl).2
      "Simplify" (by decide)⟩

/-- C9: for a builder-only suite (empty pass-name list) the registration
outcome does not depend on the pass registry at all (no validation occurs),
registration always succeeds, and every enabled case's factory uses the
pipeline-less constructor. -/
theorem c9_builder_only_suite {P Q : Type}
    (loader : String → Option TestSuite) (MakePass : String → Option P)
    (MakePassQ : String → Option Q)
    (path : String) (cs : Bool) (suite : TestSuite)
    (hload : loader path = some suite)
    (hempty : suite.pass_names = []) :
    register_test loader MakePass path cs =
      register_test loader MakePassQ path cs ∧
    register_test loader MakePass path cs = .ok (enabledOf suite cs) ∧
    ∀ t ∈ enabledOf suite cs, makeTestObj MakePass t =
      HIRTestObj.noPasses t.src_is_hir t.src t.expected_hir cs := by
  refine ⟨?_, ?_, ?_⟩
  · simp [register_test, hload, hempty]
  · simp [register_test, hload, hempty, enabledOf]
  · intro t hmem
    obtain ⟨tc, _, rfl⟩ := List.mem_map.mp hmem
    simp [makeTestObj, toReg, hempty]

/-- C9 witness: the concrete builder-only suite under two unrelated
registries. -/
theorem c9_builder_only_suite_witness :
    register_test sampleLoaderNoPasses sampleMakePassNone samplePath false =
      register_test sampleLoaderNoPasses sampleMakePassBool samplePath false ∧
    register_test sampleLoaderNoPasses sampleMakePassNone samplePath false =
      .ok (enabledOf sampleSuiteNoPasses false) ∧
    makeTestObj sampleMakePassNone (toReg sampleSuiteNoPasses false sampleCaseA) =
      HIRTestObj.noPasses (toReg sampleSuiteNoPasses false sampleCaseA).src_is_hir
        (toReg sampleSuiteNoPasses false sampleCaseA).src
        (toReg sampleSuiteNoPasses false sampleCaseA).expected_hir false :=
  ⟨(c9_builder_only_suite sampleLoaderNoPasses sampleMakePassNone
      sampleMakePassBool samplePath false sampleSuiteNoPasses rfl rfl).1,
    (c9_builder_only_suite sampleLoaderNoPasses sampleMakePassNone
      sampleMakePassBool samplePath false sampleSuiteNoPasses rfl rfl).2.1,
    (c9_builder_only_suite sampleLoaderNoPasses sampleMakePassNone
      sampleMakePassBool samplePath false sampleSuiteNoPasses rfl rfl).2.2
      (toReg sampleSuiteNoPasses false sampleCaseA) (by decide)⟩

/-- C1: if any pass name of any fixture suite registered by the driver does
not resolve in the registry, the whole process exits early with status 1
(non-zero), before `RUN_ALL_TESTS`, so zero test cases run. -/
theorem c1_unknown_pass_name_fatal {P : Type}
    (loader : String → Option TestSuite) (MakePass : String → Option P)
    (decodeOk : Bool) (runner : List RegisteredTest → Nat)
    (path : String) (cs : Bool) (suite : TestSuite) (n : String)
    (hmem : (path, cs) ∈ suitePaths)
    (hload : loader path = some suite)
    (hn : n ∈ suite.pass_names)
    (hbad : MakePass n = none) :
    driverMain loader MakePass decodeOk runner = .earlyExit 1 ∧
    exitStatus (driverMain loader MakePass decodeOk runner) ≠ 0 ∧
    executedCount (driverMain loader MakePass decodeOk runner) = 0 := by
  have h1 : suite.pass_names.isEmpty = false := by
    cases hE : suite.pass_names with
    | nil => rw [hE] at hn; exact absurd hn (List.not_mem_nil n)
    | cons a l => rfl
  have hvf : validatePasses MakePass suite.pass_names = false := by
    rw [Bool.eq_false_iff]
    intro h
    have := (validatePasses_iff MakePass suite.pass_names).mp h n hn
    rw [hbad] at this
    exact absurd this (by simp)
  have herr : register_test loader MakePass path cs = .error 1 := by
    simp [register_test, hload, h1, hvf]
  have hAll : registerAll loader MakePass = .error 1 :=
    registerParcel_error_of_mem loader MakePass suitePaths (path, cs) hmem herr
  have hm : driverMain loader MakePass decodeOk runner = .earlyExit 1 := by
    simp [driverMain, hAll]
  exact ⟨hm, by rw [hm]; decide, by rw [hm]; rfl⟩

/-- C1 witness: the sample suite references the pass name `Simplify`, which
the empty registry cannot resolve; the driver exits with status 1 and runs
nothing. -/
theorem c1_unknown_pass_name_fatal_witness :
    driverMain sampleLoader sampleMakePassNone true sampleRunner =
      .earlyExit 1 ∧
    exitStatus (driverMain sampleLoader sampleMakePassNone true sampleRunner) ≠ 0 ∧
    executedCount (driverMain sampleLoader sampleMakePassNone true sampleRunner) = 0 :=
  c1_unknown_pass_name_fatal sampleLoader sampleMakePassNone true sampleRunner
    samplePath false sampleSuite "Simplify" (by decide) rfl (by decide) rfl

/-- C2: if a fixture file registered by the driver fails to load (the suite
loader returns null), `register_test` registers no case from it, and the
whole process exits with status 1 before any test runs. -/
theorem c2_malformed_fixture_fatal {P : Type}
    (loader : String → Option TestSuite) (MakePass : String → Option P)
    (decodeOk : Bool) (runner : List RegisteredTest → Nat)
    (path : String) (cs : Bool)
    (hmem : (path, cs) ∈ suitePaths)
    (hload : loader path = none) :
    register_test loader MakePass path cs = .error 1 ∧
    driverMain loader MakePass decodeOk runner = .earlyExit 1 ∧
    exitStatus (driverMain loader MakePass decodeOk runner) ≠ 0 ∧
    executedCount (driverMain loader MakePass decodeOk runner) = 0 := by
  have herr : register_test loader MakePass path cs = .error 1 := by
    simp [register_test, hload]
  have hAll : registerAll loader MakePass = .error 1 :=
    registerParcel_error_of_mem loader MakePass suitePaths (path, cs) hmem herr
  have hm : driverMain loader MakePass decodeOk runner = .earlyExit 1 := by
    simp [driverMain, hAll]
  exact ⟨herr, hm, by rw [hm]; decide, by rw [hm]; rfl⟩

/-- C2 witness: a loader for which every fixture is malformed. -/
theorem c2_malformed_fixture_fatal_witness :
    register_test sampleLoaderBad sampleMakePassNone samplePath false = .error 1 ∧
    driverMain sampleLoaderBad sampleMakePassNone true sampleRunner = .earlyExit 1 ∧
    exitStatus (driverMain sampleLoaderBad sampleMakePassNone true sampleRunner) ≠ 0 ∧
    executedCount (driverMain sampleLoaderBad sampleMakePassNone true sampleRunner) = 0 :=
  c2_malformed_fixture_fatal sampleLoaderBad sampleMakePassNone true
    sampleRunner samplePath false (by decide) rfl

/-- C8: when every fixture loads and every referenced pass name resolves,
the driver registers the full enabled test set of every suite, runs it,
and the process exit status is the test runner's aggregate status. -/
theorem c8_full_run_aggregate_status {P : Type}
    (loader : String → Option TestSuite) (MakePass : String → Option P)
    (runner : List RegisteredTest → Nat)
    (hok : ∀ pc ∈ suitePaths, ∃ suite, loader pc.1 = some suite ∧
      ∀ n ∈ suite.pass_names, (MakePass n).isSome = true) :
    registerAll loader MakePass = .ok (registeredOf loader suitePaths) ∧
    driverMain loader MakePass true runner =
      .ran (registeredOf loader suitePaths)
        (runner (registeredOf loader suitePaths)) ∧
    exitStatus (driverMain loader MakePass true runner) =
      runner (registeredOf loader suitePaths) := by
  have hAll : registerAll loader MakePass = .ok (registeredOf loader suitePaths) :=
    registerParcel_ok_of_all loader MakePass suitePaths hok
  have hm : driverMain loader MakePass true runner =
      .ran (registeredOf loader suitePaths)
        (runner (registeredOf loader suitePaths)) := by
    simp [driverMain, hAll]
  exact ⟨hAll, hm, by rw [hm]; rfl⟩

/-- C8 witness: the sample loader together with the registry resolving its
single pass name. -/
theorem c8_full_run_aggregate_status_witness :
    registerAll sampleLoader sampleMakePass =
      .ok (registeredOf sampleLoader suitePaths) ∧
    driverMain sampleLoader sampleMakePass true sampleRunner =
      .ran (registeredOf sampleLoader suitePaths)
        (sampleRunner (registeredOf sampleLoader suitePaths)) ∧
    exitStatus (driverMain sampleLoader sampleMakePass true sampleRunner) =
      sampleRunner (registeredOf sampleLoader suitePaths) :=
  c8_full_run_aggregate_status sampleLoader sampleMakePass sampleRunner
    (fun pc _ => ⟨sampleSuite, rfl, by decide⟩)

/-- C7: whenever the driver reaches the test-running stage, its event trace
contains the stable-pointers toggle write exactly once: no write and no
test execution happen before that point, the test run happens after it,
and no further write ever follows. -/
theorem c7_stable_pointers_once {P : Type}
    (loader : String → Option TestSuite) (MakePass : String → Option P)
    (ts : List RegisteredTest)
    (hok : registerAll loader MakePass = .ok ts) :
    ∃ pre post, mainTrace loader MakePass true =
        pre ++ MainEvent.setStablePointers true :: post ∧
      pre.countP isSetStableEv = 0 ∧
      pre.countP isRunEv = 0 ∧
      post.countP isSetStableEv = 0 ∧
      post.countP isRunEv = 1 := by
  refine ⟨ts.map .registered, [MainEvent.ranAllTests ts.length], ?_, ?_, ?_, ?_, ?_⟩
  · simp [mainTrace, hok]
  · rw [List.countP_eq_zero]
    intro e he
    obtain ⟨t, _, rfl⟩ := List.mem_map.mp he
    simp [isSetStableEv]
  · rw [List.countP_eq_zero]
    intro e he
    obtain ⟨t, _, rfl⟩ := List.mem_map.mp he
    simp [isRunEv]
  · simp [List.countP_cons, isSetStableEv]
  · simp [List.countP_cons, isRunEv]

/-- C7 witness: the builder-only sample loader, under which registration
succeeds for all thirteen fixtures. -/
theorem c7_stable_pointers_once_witness :
    ∃ pre post, mainTrace sampleLoaderNoPasses sampleMakePassNone true =
        pre ++ MainEvent.setStablePointers true :: post ∧
      pre.countP isSetStableEv = 0 ∧
      pre.countP isRunEv = 0 ∧
      post.countP isSetStableEv = 0 ∧
      post.countP isRunEv = 1 :=
  c7_stable_pointers_once sampleLoaderNoPasses sampleMakePassNone
    (registeredOf sampleLoaderNoPasses suitePaths) rfl

end RuntimeTests

namespace PipelineModel

/-- C6: two pass-registry instances whose name-to-pass mapping agrees (the
registry is stateless, so two instances constructed from the same name
behave identically) build the same pipeline from a name list, and running
the pipelines they build on structurally identical starting HIR yields
byte-identical serialized output; hence validation-time and per-case pass
construction are interchangeable. -/
theorem c6_pipeline_deterministic :
    ∀ (H : Type) (serialize : H → String)
      (reg1 reg2 : String → Option (H → H)) (names : List String) (h1 h2 : H),
      (∀ n, reg1 n = reg2 n) → h1 = h2 →
      buildPipeline reg1 names = buildPipeline reg2 names ∧
      serialize (runPipeline (buildPipeline reg1 names) h1) =
        serialize (runPipeline (buildPipeline reg2 names) h2) := by
  intro H serialize reg1 reg2 names h1 h2 hreg hh
  have hfun : reg1 = reg2 := funext hreg
  subst hfun
  subst hh
  exact ⟨rfl, rfl⟩

/-- C6 witness: two independently constructed concrete registry instances
with the same mapping, run on the same concrete HIR. -/
theorem c6_pipeline_deterministic_witness :
    buildPipeline samplePassReg ["Simplify"] =
      buildPipeline samplePassRegCopy ["Simplify"] ∧
    toString (runPipeline (buildPipeline samplePassReg ["Simplify"]) 0) =
      toString (runPipeline (buildPipeline samplePassRegCopy ["Simplify"]) 0) :=
  c6_pipeline_deterministic Nat toString samplePassReg samplePassRegCopy
    ["Simplify"] 0 0 (fun _ => rfl) rfl

end PipelineModel

namespace RefcountModel

theorem liveOut_false_of_dead (cfg : Cfg) (liveIn liveOut : Nat → Nat → Bool)
    (v b : Nat) (heq : liveEqAt cfg liveIn liveOut v b)
    (hdef : cfg.defsB b v = false) (hdead : liveIn b v = false) :
    liveOut b v = false := by
  obtain ⟨hIn, _⟩ := heq
  rw [hdead, hdef] at hIn
  rcases Bool.or_eq_false_iff.mp hIn.symm with ⟨_, h2⟩
  simpa using h2

theorem liveIn_succ_false (cfg : Cfg) (liveIn liveOut : Nat → Nat → Bool)
    (v b s : Nat) (heq : liveEqAt cfg liveIn liveOut v b)
    (hs : (cfg.succs b).contains s = true)
    (hout : liveOut b v = false) : liveIn s v = false := by
  obtain ⟨_, hOut⟩ := heq
  rw [hout] at hOut
  have hmem : s ∈ cfg.succs b := by simpa using hs
  by_contra h
  rw [Bool.not_eq_false] at h
  have : (cfg.succs b).any (fun x => liveIn x v) = true :=
    List.any_eq_true.mpr ⟨s, hmem, h⟩
  rw [this] at hOut
  cases hOut

theorem decCount_dead (cfg : Cfg) (liveIn liveOut : Nat → Nat → Bool)
    (v : Nat) :
    ∀ (p : List Nat) (b : Nat),
      validPathB cfg (b :: p) = true →
      (∀ x ∈ b :: p, liveEqAt cfg liveIn liveOut v x) →
      (∀ x ∈ b :: p, cfg.defsB x v = false) →
      liveIn b v = false →
      decCount cfg liveIn liveOut v (b :: p) = 0 := by
  intro p
  induction p with
  | nil =>
    intro b _ _ hdefs hdead
    have hdef := hdefs b (List.mem_singleton.mpr rfl)
    simp [decCount, decInBlock, hdef, hdead]
  | cons s rest ih =>
    intro b hvalid heqs hdefs hdead
    have heqb := heqs b (List.mem_cons_self b _)
    have hdefb := hdefs b (List.mem_cons_self b _)
    have hout : liveOut b v = false :=
      liveOut_false_of_dead cfg liveIn liveOut v b heqb hdefb hdead
    obtain ⟨hcont, hvalid'⟩ := Bool.and_eq_true _ _ |>.mp hvalid
    have hins : liveIn s v = false :=
      liveIn_succ_false cfg liveIn liveOut v b s heqb hcont hout
    have htail := ih s hvalid'
      (fun x hx => heqs x (List.mem_cons_of_mem b hx))
      (fun x hx => hdefs x (List.mem_cons_of_mem b hx)) hins
    simp [decCount, decInBlock, decOnEdge, hdefb, hdead, hout, htail]

theorem decCount_live (cfg : Cfg) (liveIn liveOut : Nat → Nat → Bool)
    (v : Nat) :
    ∀ (p : List Nat) (b : Nat),
      validPathB cfg (b :: p) = true →
      (∀ x ∈ b :: p, liveEqAt cfg liveIn liveOut v x) →
      (∀ x ∈ b :: p, cfg.defsB x v = false) →
      liveIn b v = true →
      decCount cfg liveIn liveOut v (b :: p) = 1 := by
  intro p
  induction p with
  | nil =>
    intro b hvalid heqs hdefs hlive
    have heqb := heqs b (List.mem_singleton.mpr rfl)
    obtain ⟨_, hOut⟩ := heqb
    have hnil : cfg.succs b = [] := by
      simpa [validPathB, List.isEmpty_iff] using hvalid
    rw [hnil] at hOut
    simp only [List.any_nil] at hOut
    simp [decCount, decInBlock, hlive, hOut]
  | cons s rest ih =>
    intro b hvalid heqs hdefs hlive
    have heqb := heqs b (List.mem_cons_self b _)
    have hdefb := hdefs b (List.mem_cons_self b _)
    obtain ⟨hcont, hvalid'⟩ := Bool.and_eq_true _ _ |>.mp hvalid
    have heqs' := fun x hx => heqs x (List.mem_cons_of_mem b hx)
    have hdefs' := fun x hx => hdefs x (List.mem_cons_of_mem b hx)
    cases hout : liveOut b v with
    | false =>
      have hins : liveIn s v = false :=
        liveIn_succ_false cfg liveIn liveOut v b s heqb hcont hout
      have htail :=
        decCount_dead cfg liveIn liveOut v rest s hvalid' heqs' hdefs' hins
      simp [decCount, decInBlock, decOnEdge, hlive, hout, htail]
    | true =>
      cases hins : liveIn s v with
      | false =>
        have htail :=
          decCount_dead cfg liveIn liveOut v rest s hvalid' heqs' hdefs' hins
        simp [decCount, decInBlock, decOnEdge, hlive, hout, hins, htail]
      | true =>
        have htail := ih s hvalid' heqs' hdefs' hins
        simp [decCount, decInBlock, decOnEdge, hlive, hout, hins, htail]

/-- C5: after refcount insertion, along every acyclic path from function
entry to any exit (normal or exceptional — any block with no remaining
successors, exceptional edges being ordinary successors), the number of
ownership-acquiring operations for an originally-owned reference (the +1
established at its definition, by the defining instruction or the inserted
increment, §4.4 step 2) equals the number of decrements the pass placed on
that path, so the balance is exactly zero once the reference is dead.
Hypotheses: the path is edge-valid and acyclic, the liveness sets solve
the backward-dataflow equations along it, the value has a single
definition site (SSA), and it is not live at the path's entry (every use
is dominated by the definition). -/
theorem c5_refcount_balance (cfg : Cfg) (liveIn liveOut : Nat → Nat → Bool)
    (v : Nat) :
    ∀ (p : List Nat) (b : Nat),
      validPathB cfg (b :: p) = true →
      (b :: p).Nodup →
      (∀ x ∈ b :: p, ∀ y ∈ b :: p,
        cfg.defsB x v = true → cfg.defsB y v = true → x = y) →
      (∀ x ∈ b :: p, liveEqAt cfg liveIn liveOut v x) →
      liveIn b v = false →
      incCount cfg v (b :: p) = decCount cfg liveIn liveOut v (b :: p) := by
  intro p
  induction p with
  | nil =>
    intro b hvalid _ _ heqs hentry
    have heqb := heqs b (List.mem_singleton.mpr rfl)
    obtain ⟨_, hOut⟩ := heqb
    have hnil : cfg.succs b = [] := by
      simpa [validPathB, List.isEmpty_iff] using hvalid
    rw [hnil] at hOut
    simp only [List.any_nil] at hOut
    cases hdef : cfg.defsB b v <;>
      simp [incCount, decCount, decInBlock, List.countP_cons, hdef, hentry, hOut]
  | cons s rest ih =>
    intro b hvalid hnodup hssa heqs hentry
    have heqb := heqs b (List.mem_cons_self b _)
    obtain ⟨hcont, hvalid'⟩ := Bool.and_eq_true _ _ |>.mp hvalid
    have heqs' := fun x hx => heqs x (List.mem_cons_of_mem b hx)
    cases hdef : cfg.defsB b v with
    | false =>
      have hout : liveOut b v = false :=
        liveOut_false_of_dead cfg liveIn liveOut v b heqb hdef hentry
      have hins : liveIn s v = false :=
        liveIn_succ_false cfg liveIn liveOut v b s heqb hcont hout
      have hssa' : ∀ x ∈ s :: rest, ∀ y ∈ s :: rest,
          cfg.defsB x v = true → cfg.defsB y v = true → x = y :=
        fun x hx y hy => hssa x (List.mem_cons_of_mem b hx) y
          (List.mem_cons_of_mem b hy)
      have htail := ih s hvalid' (List.nodup_cons.mp hnodup).2 hssa' heqs' hins
      simp [incCount, List.countP_cons, hdef, decCount, decInBlock, decOnEdge,
        hentry, hout, hins] at htail ⊢
      exact htail
    | true =>
      have hbnotin : b ∉ s :: rest := (List.nodup_cons.mp hnodup).1
      have hdefs' : ∀ x ∈ s :: rest, cfg.defsB x v = false := by
        intro x hx
        by_contra h
        rw [Bool.not_eq_false] at h
        have := hssa x (List.mem_cons_of_mem b hx) b (List.mem_cons_self b _)
          h hdef
        exact hbnotin (this ▸ hx)
      have hinczero : incCount cfg v (s :: rest) = 0 := by
        rw [incCount, List.countP_eq_zero]
        intro x hx
        simp [hdefs' x hx]
      have hz : List.countP (fun x => cfg.defsB x v) (s :: rest) = 0 := hinczero
      cases hout : liveOut b v with
      | false =>
        have hins : liveIn s v = false :=
          liveIn_succ_false cfg liveIn liveOut v b s heqb hcont hout
        have htail :=
          decCount_dead cfg liveIn liveOut v rest s hvalid' heqs' hdefs' hins
        simp [incCount, List.countP_cons, hdef, decCount, decInBlock,
          decOnEdge, hout, htail, hz]
      | true =>
        cases hins : liveIn s v with
        | false =>
          have htail :=
            decCount_dead cfg liveIn liveOut v rest s hvalid' heqs' hdefs' hins
          simp [incCount, List.countP_cons, hdef, decCount, decInBlock,
            decOnEdge, hout, hins, htail, hz]
        | true =>
          have htail :=
            decCount_live cfg liveIn liveOut v rest s hvalid' heqs' hdefs' hins
          simp [incCount, List.countP_cons, hdef, decCount, decInBlock,
            decOnEdge, hout, hins, htail, hz]

/-- C5 witness: on the concrete diamond CFG, along the acyclic path through
the using branch, the single ownership acquisition of value 7 is matched by
exactly one decrement. -/
theorem c5_refcount_balance_witness :
    incCount sampleCfg 7 [0, 1, 3] =
      decCount sampleCfg sampleLiveIn sampleLiveOut 7 [0, 1, 3] :=
  c5_refcount_balance sampleCfg sampleLiveIn sampleLiveOut 7 [1, 3] 0
    (by decide) (by decide) (by decide) (by decide) (by decide)

end RefcountModel
